import Mathlib

/-!
Verification development for the File-Caching-Proxy repository.

The repository ships only the client-side test driver
`src/filecache/tester.cpp`; the AFS-style caching proxy that the tests
exercise is specified in `spec.md` (sections 2-7) but its implementation is
not part of the sources.  The cache/session core below is therefore
modelled from the spec; the one piece of real code embedded from the
source is `full_read` (tester.cpp lines 22-29).
-/

namespace FCProxy

/-- Bytes of a file, modelled as a list of naturals. -/
abbrev Bytes := List Nat

/-- Error kinds of the proxy, from spec section 7. -/
inductive Err where
  | NotFound
  | AlreadyExists
  | NotWritable
  | PushFailed
  | BadHandle
  deriving DecidableEq, Repr

/-- Session mode: read-only or write-capable, from spec section 3. -/
inductive Mode where
  | readOnly
  | readWrite
  deriving DecidableEq, Repr

/-- Modelled from the spec: `CacheEntry` record of spec section 3 (the
CacheStore implementation is absent from src/).  `recency` is represented
by the position of the entry in the list of the store. -/
structure CacheEntry where
  path : String
  version : Nat
  content : Bytes
  pin_count : Nat
  deleted : Bool
  deriving DecidableEq, Repr

/-- Modelled from the spec: the CacheStore of spec section 4.1.  The list
order is the LRU order, head = least recently used. -/
structure CacheStore where
  entries : List CacheEntry
  capacity : Nat
  deriving DecidableEq, Repr

/-- Modelled from the spec: a remote file held by the ServerGateway
(spec section 6): full content plus server-assigned version stamp. -/
structure ServerFile where
  content : Bytes
  version : Nat
  deriving DecidableEq, Repr

/-- Modelled from the spec: the ServerGateway collaborator of spec
section 6.  `pushFail` lists paths whose push the gateway rejects
(Conflict/IOError), so that failed commits can be modelled. -/
structure ServerGateway where
  files : List (String × ServerFile)
  nextVersion : Nat
  pushFail : List String
  deriving DecidableEq, Repr

/-- Modelled from the spec: `OpenSession` record of spec section 3. -/
structure OpenSession where
  path : String
  mode : Mode
  base_version : Nat
  buffer : Bytes
  offset : Nat
  dirty : Bool
  original_length : Nat
  deriving DecidableEq, Repr

/-- Modelled from the spec: the whole proxy state (SessionManager plus
collaborators), spec section 2.  `fetchCount` counts full-content fetches
from the ServerGateway. -/
structure ProxyState where
  server : ServerGateway
  store : CacheStore
  sessions : List (Nat × OpenSession)
  nextHandle : Nat
  fetchCount : Nat
  deriving DecidableEq, Repr

/-- Server metadata/content resolution (`stat`/`fetch` of spec section 6). -/
def serverStat (sv : ServerGateway) (p : String) : Option ServerFile :=
  (sv.files.find? (fun q => q.1 == p)).map (fun q => q.2)

/-- Server-side delete (spec section 6). -/
def serverDelete (sv : ServerGateway) (p : String) : ServerGateway :=
  { sv with files := sv.files.filter (fun q => q.1 != p) }

/-- Server-side create of an empty file (spec section 6); returns the new
version stamp. -/
def serverCreate (sv : ServerGateway) (p : String) : Nat × ServerGateway :=
  (sv.nextVersion,
   { sv with
       files := (p, ⟨[], sv.nextVersion⟩) :: sv.files.filter (fun q => q.1 != p),
       nextVersion := sv.nextVersion + 1 })

/-- Server-side push of a modified body (spec section 6); fails on paths
in `pushFail`, otherwise yields the new version stamp. -/
def serverPush (sv : ServerGateway) (p : String) (c : Bytes) :
    Option (Nat × ServerGateway) :=
  if sv.pushFail.contains p then none
  else some (sv.nextVersion,
    { sv with
        files := (p, ⟨c, sv.nextVersion⟩) :: sv.files.filter (fun q => q.1 != p),
        nextVersion := sv.nextVersion + 1 })

/-- Byte length of the content of an entry (`size` of spec section 3). -/
def entrySize (e : CacheEntry) : Nat := e.content.length

/-- Total cache footprint: sum of entry sizes. -/
def totalSize (es : List CacheEntry) : Nat := (es.map entrySize).sum

/-- Look a path up in the LRU list. -/
def findEntry (es : List CacheEntry) (p : String) : Option CacheEntry :=
  es.find? (fun e => e.path == p)

/-- Drop every entry keyed by `p` from the LRU list. -/
def removePath (es : List CacheEntry) (p : String) : List CacheEntry :=
  es.filter (fun e => e.path != p)

/-- Remove the least-recently-used entry with `pin_count == 0`; `none`
when every entry is pinned (spec section 4.1). -/
def dropFirstUnpinned : List CacheEntry → Option (List CacheEntry)
  | [] => none
  | e :: es =>
    if e.pin_count == 0 then some es
    else (dropFirstUnpinned es).map (fun es' => e :: es')

/-- Eviction loop of spec section 4.1: evict LRU entries with
`pin_count == 0`, oldest first, until the new content fits or no
evictable entries remain (capacity may then still be exceeded). -/
def evictLoop : Nat → List CacheEntry → Nat → Nat → List CacheEntry
  | 0, es, _, _ => es
  | fuel + 1, es, need, cap =>
    if totalSize es + need ≤ cap then es
    else
      match dropFirstUnpinned es with
      | some es' => evictLoop fuel es' need cap
      | none => es

/-- `CacheStore.insert` of spec section 4.1: evict as needed, then add the
new entry at the most-recently-used position, pinned by its opener. -/
def insertEntry (store : CacheStore) (p : String) (c : Bytes) (v : Nat) :
    CacheStore :=
  { store with
      entries :=
        evictLoop store.entries.length store.entries c.length store.capacity
          ++ [⟨p, v, c, 1, false⟩] }

/-- `CacheStore.update` of spec section 4.1: replace content/version of an
existing entry, keep its pin count, reset recency to most-recently-used. -/
def updateEntry (es : List CacheEntry) (p : String) (c : Bytes) (v : Nat) :
    List CacheEntry :=
  match findEntry es p with
  | none => es
  | some e => removePath es p ++ [{ e with content := c, version := v }]

/-- Session-table lookup. -/
def getSession (st : ProxyState) (h : Nat) : Option OpenSession :=
  (st.sessions.find? (fun q => q.1 == h)).map (fun q => q.2)

/-- Replace the session stored under handle `h`. -/
def setSession (ss : List (Nat × OpenSession)) (h : Nat) (s : OpenSession) :
    List (Nat × OpenSession) :=
  ss.map (fun q => if q.1 == h then (h, s) else q)

/-- Drop the session stored under handle `h`. -/
def removeSession (ss : List (Nat × OpenSession)) (h : Nat) :
    List (Nat × OpenSession) :=
  ss.filter (fun q => q.1 != h)

/-- Fresh session record at open time (spec section 4.2 step 4):
`base_version` is the version of the entry, the buffer is the entry content,
`original_length` is the buffer length at fork time. -/
def mkSession (p : String) (m : Mode) (v : Nat) (c : Bytes) : OpenSession :=
  { path := p, mode := m, base_version := v, buffer := c, offset := 0,
    dirty := false, original_length := c.length }

/-- Modelled from the spec: `SessionManager.open` state machine of spec
section 4.2 (the SessionManager implementation is absent from src/).
Hit on a live entry re-validates the version by a `stat` (no fetch when it
matches, re-fetch when stale, spec section 4.6); a hit on an entry marked
`deleted` resolves the path as logically absent (spec section 4.5); a miss
consults the server and either fails, creates, or fetches and inserts. -/
def openFile (st : ProxyState) (p : String) (m : Mode) (create excl : Bool) :
    Except Err Nat × ProxyState :=
  match findEntry st.store.entries p with
  | some e =>
    if e.deleted then
      if create then
        let cr := serverCreate st.server p
        (Except.ok st.nextHandle,
         { st with
             server := cr.2,
             store := { st.store with
               entries := removePath st.store.entries p
                 ++ [⟨p, cr.1, [], e.pin_count + 1, false⟩] },
             sessions := st.sessions ++ [(st.nextHandle, mkSession p m cr.1 [])],
             nextHandle := st.nextHandle + 1 })
      else (Except.error Err.NotFound, st)
    else if create && excl then (Except.error Err.AlreadyExists, st)
    else
      match serverStat st.server p with
      | some f =>
        if f.version == e.version then
          (Except.ok st.nextHandle,
           { st with
               store := { st.store with
                 entries := removePath st.store.entries p
                   ++ [{ e with pin_count := e.pin_count + 1 }] },
               sessions := st.sessions
                 ++ [(st.nextHandle, mkSession p m e.version e.content)],
               nextHandle := st.nextHandle + 1 })
        else
          (Except.ok st.nextHandle,
           { st with
               store := { st.store with
                 entries := removePath st.store.entries p
                   ++ [⟨p, f.version, f.content, e.pin_count + 1, false⟩] },
               sessions := st.sessions
                 ++ [(st.nextHandle, mkSession p m f.version f.content)],
               nextHandle := st.nextHandle + 1,
               fetchCount := st.fetchCount + 1 })
      | none => (Except.error Err.NotFound, st)
  | none =>
    match serverStat st.server p with
    | some f =>
      if create && excl then (Except.error Err.AlreadyExists, st)
      else
        (Except.ok st.nextHandle,
         { st with
             store := insertEntry st.store p f.content f.version,
             sessions := st.sessions
               ++ [(st.nextHandle, mkSession p m f.version f.content)],
             nextHandle := st.nextHandle + 1,
             fetchCount := st.fetchCount + 1 })
    | none =>
      if create then
        let cr := serverCreate st.server p
        (Except.ok st.nextHandle,
         { st with
             server := cr.2,
             store := insertEntry st.store p [] cr.1,
             sessions := st.sessions ++ [(st.nextHandle, mkSession p m cr.1 [])],
             nextHandle := st.nextHandle + 1 })
      else (Except.error Err.NotFound, st)

/-- Modelled from the spec: `read` of spec section 4.3 — copy up to `n`
bytes from `buffer[offset..]`, advance the offset; entirely local to the
buffer of the session. -/
def readSession (st : ProxyState) (h : Nat) (n : Nat) :
    Except Err Bytes × ProxyState :=
  match getSession st h with
  | none => (Except.error Err.BadHandle, st)
  | some s =>
    let bytes := (s.buffer.drop s.offset).take n
    let s' := { s with offset := s.offset + bytes.length }
    (Except.ok bytes, { st with sessions := setSession st.sessions h s' })

/-- Overwrite `buf` at `off` with `data`, zero-padding and growing as
needed (POSIX write at a cursor). -/
def writeAt (buf : Bytes) (off : Nat) (data : Bytes) : Bytes :=
  buf.take off ++ List.replicate (off - buf.length) 0 ++ data
    ++ buf.drop (off + data.length)

/-- Modelled from the spec: `write` of spec sections 4.2-4.3.  Fails
`NotWritable` on read-only sessions; otherwise overwrites at the cursor,
sets `dirty`, and returns `(count, reserve)` where `reserve` is the extra
backing space reserved by the policy of spec section 4.2 (zero when the
target range stays within `[0, original_length)`, the delta past
`original_length` otherwise); `original_length` then advances to the
actual resulting buffer length. -/
def writeSession (st : ProxyState) (h : Nat) (data : Bytes) :
    Except Err (Nat × Nat) × ProxyState :=
  match getSession st h with
  | none => (Except.error Err.BadHandle, st)
  | some s =>
    if s.mode == Mode.readOnly then (Except.error Err.NotWritable, st)
    else
      let buf' := writeAt s.buffer s.offset data
      let s' := { s with buffer := buf', offset := s.offset + data.length,
                         dirty := true, original_length := buf'.length }
      (Except.ok (data.length, s.offset + data.length - s.original_length),
       { st with sessions := setSession st.sessions h s' })

/-- Modelled from the spec: `lseek(fd, 0, SEEK_END)` as used by the test
driver — move the cursor to the end of the session buffer. -/
def seekEnd (st : ProxyState) (h : Nat) : Except Err Nat × ProxyState :=
  match getSession st h with
  | none => (Except.error Err.BadHandle, st)
  | some s =>
    let s' := { s with offset := s.buffer.length }
    (Except.ok s.buffer.length,
     { st with sessions := setSession st.sessions h s' })

/-- Modelled from the spec: `CacheStore.unpin` of spec section 4.1 —
decrement the pin count; when it reaches 0 on an entry marked `deleted`,
finalize the deferred deletion (drop the entry, propagate the delete to
the server). -/
def unpinStore (st : ProxyState) (p : String) : ProxyState :=
  match findEntry st.store.entries p with
  | none => st
  | some e =>
    if e.pin_count ≤ 1 ∧ e.deleted = true then
      { st with
          store := { st.store with entries := removePath st.store.entries p },
          server := serverDelete st.server p }
    else
      let es := st.store.entries.map (fun e' =>
        if e'.path == p then { e' with pin_count := e'.pin_count - 1 } else e')
      { st with store := { st.store with entries := es } }

/-- Modelled from the spec: `close` of spec section 4.4.  A clean or
read-only session just unpins; a dirty write session pushes its buffer,
and only on a successful push updates the CacheEntry and unpins — a
failed push changes nothing and leaves the session in place, still dirty,
for a retry (spec section 7). -/
def closeFile (st : ProxyState) (h : Nat) : Except Err Unit × ProxyState :=
  match getSession st h with
  | none => (Except.error Err.BadHandle, st)
  | some s =>
    if s.mode == Mode.readWrite && s.dirty then
      match serverPush st.server s.path s.buffer with
      | none => (Except.error Err.PushFailed, st)
      | some pr =>
        (Except.ok (),
         unpinStore
           { st with
               server := pr.2,
               store := { st.store with
                 entries := updateEntry st.store.entries s.path s.buffer pr.1 },
               sessions := removeSession st.sessions h }
           s.path)
    else
      (Except.ok (),
       unpinStore { st with sessions := removeSession st.sessions h } s.path)

/-- Modelled from the spec: `unlink` of spec section 4.5.  With no open
sessions the entry is dropped and the delete propagated at once; with
open sessions the entry is only marked `deleted` and actual deletion is
deferred to the last unpin. -/
def unlinkPath (st : ProxyState) (p : String) : Except Err Unit × ProxyState :=
  match findEntry st.store.entries p with
  | some e =>
    if e.pin_count == 0 then
      (Except.ok (),
       { st with
           store := { st.store with entries := removePath st.store.entries p },
           server := serverDelete st.server p })
    else
      let es := st.store.entries.map (fun e' =>
        if e'.path == p then { e' with deleted := true } else e')
      (Except.ok (), { st with store := { st.store with entries := es } })
  | none =>
    match serverStat st.server p with
    | some _ => (Except.ok (), { st with server := serverDelete st.server p })
    | none => (Except.error Err.NotFound, st)

/-- Embedding of `full_read` (src/filecache/tester.cpp lines 22-29): the
i-th call to `read` returns `f i` bytes; the loop accumulates positive
return values into `reads` (which is also the buffer offset of the next
chunk) and stops at the first non-positive return.  `fuel` bounds the
number of iterations; `none` means the fuel ran out before the loop
stopped. -/
def full_read_loop (f : Nat → Int) : Nat → Nat → Int → Option Int
  | 0, _, _ => none
  | fuel + 1, i, reads =>
    if 0 < f i then full_read_loop f fuel (i + 1) (reads + f i)
    else some reads

/-- Embedding of `full_read` at entry: accumulator starts at 0 with the
first `read` call. -/
def full_read (f : Nat → Int) (fuel : Nat) : Option Int :=
  full_read_loop f fuel 0 0

/-! Concrete scenario states used to instantiate the theorems below.  The
LRU scenario follows `test_lru_5` of tester.cpp: one-unit files `A`..`G`
on the server and a five-unit cache. -/

/-- A one-unit (single byte) server file with version stamp `v`. -/
def unitFile (v : Nat) : ServerFile := ⟨[7], v⟩

/-- Server holding the one-unit files `A`..`G` of the LRU scenario. -/
def lruServer : ServerGateway :=
  { files := [("A", unitFile 0), ("B", unitFile 1), ("C", unitFile 2),
              ("D", unitFile 3), ("E", unitFile 4), ("F", unitFile 5),
              ("G", unitFile 6)],
    nextVersion := 7, pushFail := [] }

/-- Initial proxy state of the LRU scenario: empty five-unit cache. -/
def lruInit : ProxyState :=
  { server := lruServer, store := { entries := [], capacity := 5 },
    sessions := [], nextHandle := 0, fetchCount := 0 }

/-- Open a path read-only and close it immediately (as the test driver pairs
each `open` with a `close`). -/
def openCloseRO (st : ProxyState) (p : String) : ProxyState :=
  let r := openFile st p Mode.readOnly false false
  match r.1 with
  | Except.ok h => (closeFile r.2 h).2
  | Except.error _ => r.2

/-- Run a sequence of open/close pairs. -/
def runRO (st : ProxyState) (ps : List String) : ProxyState :=
  ps.foldl openCloseRO st

/-- The cached paths in LRU order, oldest first. -/
def pathsOf (st : ProxyState) : List String :=
  st.store.entries.map (fun e => e.path)

/-- A dirty write-mode session on path `b` whose one appended byte is
`x`; both writers of the two-writer scenario fork base content `[1]`. -/
def writerSession (x : Nat) : OpenSession :=
  ⟨"b", Mode.readWrite, 0, [1, x], 2, true, 2⟩

/-- Two dirty writers on path `b`, both opened against base version 0. -/
def twoWriterState : ProxyState :=
  { server := { files := [("b", ⟨[1], 0⟩)], nextVersion := 1, pushFail := [] },
    store := { entries := [⟨"b", 0, [1], 2, false⟩], capacity := 10 },
    sessions := [(0, writerSession 100), (1, writerSession 200)],
    nextHandle := 2, fetchCount := 0 }

/-- A read-only session holding the open-time snapshot `[1, 2]` of `b`. -/
def snapReader : OpenSession := ⟨"b", Mode.readOnly, 0, [1, 2], 0, false, 2⟩

/-- A dirty writer on `b` that appended the byte `9` to its fork. -/
def snapWriter : OpenSession := ⟨"b", Mode.readWrite, 0, [1, 2, 9], 3, true, 3⟩

/-- Reader plus dirty writer on `b`, for the snapshot-isolation claim. -/
def snapState : ProxyState :=
  { server := { files := [("b", ⟨[1, 2], 0⟩)], nextVersion := 1, pushFail := [] },
    store := { entries := [⟨"b", 0, [1, 2], 2, false⟩], capacity := 10 },
    sessions := [(0, snapReader), (1, snapWriter)],
    nextHandle := 2, fetchCount := 0 }

/-- A clean write-mode session on the ten-byte file `A` with cursor at
`off` (test_lru_3 forks a ten-byte `A.txt`). -/
def resvSession (off : Nat) : OpenSession :=
  ⟨"A", Mode.readWrite, 0, List.replicate 10 1, off, false, 10⟩

/-- State of the reservation scenario with the writer cursor at `off`. -/
def resvState (off : Nat) : ProxyState :=
  { server := { files := [("A", ⟨List.replicate 10 1, 0⟩)], nextVersion := 1,
                pushFail := [] },
    store := { entries := [⟨"A", 0, List.replicate 10 1, 1, false⟩],
               capacity := 100 },
    sessions := [(0, resvSession off)], nextHandle := 1, fetchCount := 0 }

/-- A read-only session pinning the one-byte file `A`. -/
def unlinkSession : OpenSession := ⟨"A", Mode.readOnly, 0, [7], 0, false, 1⟩

/-- One pinned entry for `A` with a live read session, for the
unlink-while-open claim. -/
def unlinkState : ProxyState :=
  { server := { files := [("A", ⟨[7], 0⟩)], nextVersion := 1, pushFail := [] },
    store := { entries := [⟨"A", 0, [7], 1, false⟩], capacity := 5 },
    sessions := [(0, unlinkSession)], nextHandle := 1, fetchCount := 0 }

/-- A dirty writer on path `p` whose push the gateway rejects. -/
def pushFailState : ProxyState :=
  { server := { files := [("p", ⟨[1], 0⟩)], nextVersion := 1, pushFail := ["p"] },
    store := { entries := [⟨"p", 0, [1], 1, false⟩], capacity := 5 },
    sessions := [(0, ⟨"p", Mode.readWrite, 0, [9], 1, true, 1⟩)],
    nextHandle := 1, fetchCount := 0 }

/-! Generic association-list lemmas used to reason about the session
table and the LRU entry list. -/

/-- `find?` is unchanged by filtering with a predicate that every
`find?`-candidate satisfies. -/
theorem find?_filter_keep {α} (l : List α) (pr ke : α → Bool)
    (hk : ∀ a, pr a = true → ke a = true) :
    (l.filter ke).find? pr = l.find? pr := by
  induction l with
  | nil => rfl
  | cons a l ih =>
    by_cases hke : ke a = true
    · by_cases hpr : pr a = true
      · rw [List.filter_cons, if_pos hke, List.find?_cons_of_pos _ hpr,
            List.find?_cons_of_pos _ hpr]
      · rw [List.filter_cons, if_pos hke, List.find?_cons_of_neg _ hpr,
            List.find?_cons_of_neg _ hpr, ih]
    · have hpr : ¬ pr a = true := fun h => hke (hk a h)
      rw [List.filter_cons, if_neg hke, ih, List.find?_cons_of_neg _ hpr]

/-- `find?` commutes with mapping a function that preserves the
predicate. -/
theorem find?_map_pred {α} (l : List α) (f : α → α) (pr : α → Bool)
    (hf : ∀ a, pr (f a) = pr a) :
    (l.map f).find? pr = (l.find? pr).map f := by
  induction l with
  | nil => rfl
  | cons a l ih =>
    by_cases hpr : pr a = true
    · have : pr (f a) = true := (hf a).trans hpr
      simp [List.find?_cons_of_pos _ hpr, List.find?_cons_of_pos _ this]
    · have : ¬ pr (f a) = true := fun h => hpr ((hf a).symm.trans h)
      simp only [List.map_cons]
      rw [List.find?_cons_of_neg _ this, List.find?_cons_of_neg _ hpr, ih]

/-- Mapping a function that fixes every element of a list is the
identity. -/
theorem map_fixed {α} (l : List α) (f : α → α) (hf : ∀ a ∈ l, f a = a) :
    l.map f = l := by
  induction l with
  | nil => rfl
  | cons a l ih =>
    simp only [List.map_cons, hf a (List.mem_cons_self a l)]
    rw [ih fun a ha => hf a (List.mem_cons_of_mem _ ha)]

/-- An entry found under path `p` carries path `p`. -/
theorem findEntry_path {es : List CacheEntry} {p : String} {e : CacheEntry}
    (h : findEntry es p = some e) : e.path = p := by
  simp only [findEntry] at h
  simpa using List.find?_some h

/-- After dropping path `p`, nothing is found under `p`. -/
theorem findEntry_removePath_self (es : List CacheEntry) (p : String) :
    findEntry (removePath es p) p = none := by
  simp only [findEntry, removePath]
  rw [List.find?_eq_none]
  intro e he
  have := (List.mem_filter.1 he).2
  simpa using this

/-- Dropping path `p` does not affect lookups of other paths. -/
theorem findEntry_removePath_ne (es : List CacheEntry) (p q : String)
    (hne : q ≠ p) : findEntry (removePath es p) q = findEntry es q := by
  simp only [findEntry, removePath]
  apply find?_filter_keep
  intro a ha
  have h : a.path = q := by simpa using ha
  simp [h, hne]

/-- Entry lookup distributes over list append. -/
theorem findEntry_append (es1 es2 : List CacheEntry) (p : String) :
    findEntry (es1 ++ es2) p = (findEntry es1 p).or (findEntry es2 p) := by
  simp only [findEntry]
  exact List.find?_append

/-- Looking up the entry just moved to the most-recently-used position. -/
theorem findEntry_remove_append (es : List CacheEntry) (p : String)
    (e : CacheEntry) (hp : e.path = p) :
    findEntry (removePath es p ++ [e]) p = some e := by
  rw [findEntry_append, findEntry_removePath_self]
  simp [findEntry, hp]

/-- Dropping path `p` twice is the same as dropping it once, and the
moved-to-front entry is dropped with it. -/
theorem removePath_remove_append (es : List CacheEntry) (p : String)
    (e : CacheEntry) (hp : e.path = p) :
    removePath (removePath es p ++ [e]) p = removePath es p := by
  have h1 : List.filter (fun a => a.path != p) [e] = [] := by simp [hp]
  simp [removePath, List.filter_append, List.filter_filter, Bool.and_self, h1]

/-- Removing one session handle does not affect lookups of another. -/
theorem find?_removeSession_ne (ss : List (Nat × OpenSession)) (h1 h2 : Nat)
    (hne : h2 ≠ h1) :
    (removeSession ss h1).find? (fun q => q.1 == h2)
      = ss.find? (fun q => q.1 == h2) := by
  simp only [removeSession]
  apply find?_filter_keep
  intro a ha
  have h : a.1 = h2 := by simpa using ha
  simp [h, hne]

/-- Replacing one session does not affect lookups of another handle. -/
theorem find?_setSession_ne (ss : List (Nat × OpenSession)) (h1 h2 : Nat)
    (s : OpenSession) (hne : h2 ≠ h1) :
    (setSession ss h1 s).find? (fun q => q.1 == h2)
      = ss.find? (fun q => q.1 == h2) := by
  simp only [setSession]
  rw [find?_map_pred]
  · cases hfind : ss.find? (fun q => q.1 == h2) with
    | none => rfl
    | some a =>
      have ha : a.1 = h2 := by simpa using List.find?_some hfind
      simp [ha, hne]
  · intro b
    by_cases hb : b.1 = h1 <;> simp [hb]

/-- Replacing the session under `h` makes lookups of `h` return the
replacement. -/
theorem find?_setSession_self (ss : List (Nat × OpenSession)) (h : Nat)
    (s : OpenSession) (a : Nat × OpenSession)
    (hfind : ss.find? (fun q => q.1 == h) = some a) :
    (setSession ss h s).find? (fun q => q.1 == h) = some (h, s) := by
  simp only [setSession]
  rw [find?_map_pred, hfind]
  · have ha : a.1 = h := by simpa using List.find?_some hfind
    simp [ha]
  · intro b
    by_cases hb : b.1 = h <;> simp [hb]

/-- A server-side delete makes `stat` of that path fail. -/
theorem serverStat_delete_self (sv : ServerGateway) (p : String) :
    serverStat (serverDelete sv p) p = none := by
  have h : (sv.files.filter (fun q => q.1 != p)).find? (fun q => q.1 == p)
      = none := by
    rw [List.find?_eq_none]
    intro a ha
    have := (List.mem_filter.1 ha).2
    simpa using this
  simp [serverStat, serverDelete, h]

/-! Lemmas about the eviction loop, for the pinning claims. -/

/-- `dropFirstUnpinned` never removes a pinned entry. -/
theorem mem_dropFirstUnpinned {es es' : List CacheEntry}
    (h : dropFirstUnpinned es = some es') {e : CacheEntry}
    (he : e ∈ es) (hpin : 0 < e.pin_count) : e ∈ es' := by
  induction es generalizing es' with
  | nil => simp [dropFirstUnpinned] at h
  | cons a es ih =>
    by_cases ha : a.pin_count = 0
    · have ha' : (a.pin_count == 0) = true := by simpa using ha
      simp only [dropFirstUnpinned, ha', if_true] at h
      cases h
      rcases List.mem_cons.1 he with he | he
      · subst he; omega
      · exact he
    · have ha' : (a.pin_count == 0) = false := by simpa using ha
      simp only [dropFirstUnpinned, ha', Bool.false_eq_true, if_false] at h
      cases hdrop : dropFirstUnpinned es with
      | none => rw [hdrop] at h; simp at h
      | some es'' =>
        rw [hdrop] at h
        simp only [Option.map_some'] at h
        cases h
        rcases List.mem_cons.1 he with he | he
        · subst he; exact List.mem_cons_self _ _
        · exact List.mem_cons_of_mem _ (ih hdrop he)

/-- With every entry pinned there is nothing to evict. -/
theorem dropFirstUnpinned_none {es : List CacheEntry}
    (h : ∀ e ∈ es, 0 < e.pin_count) : dropFirstUnpinned es = none := by
  induction es with
  | nil => rfl
  | cons a es ih =>
    have ha : (a.pin_count == 0) = false := by
      have := h a (List.mem_cons_self a es)
      simpa using Nat.pos_iff_ne_zero.1 this
    simp [dropFirstUnpinned, ha, ih fun e he => h e (List.mem_cons_of_mem _ he)]

/-- The eviction loop never removes a pinned entry. -/
theorem mem_evictLoop {es : List CacheEntry} {e : CacheEntry}
    (fuel need cap : Nat) (he : e ∈ es) (hpin : 0 < e.pin_count) :
    e ∈ evictLoop fuel es need cap := by
  induction fuel generalizing es with
  | zero => simpa [evictLoop] using he
  | succ fuel ih =>
    by_cases hfit : totalSize es + need ≤ cap
    · simpa [evictLoop, hfit] using he
    · cases hdrop : dropFirstUnpinned es with
      | none => simpa [evictLoop, hfit, hdrop] using he
      | some es' =>
        have hmem := mem_dropFirstUnpinned hdrop he hpin
        simpa [evictLoop, hfit, hdrop] using ih hmem

/-- With every entry pinned the eviction loop changes nothing, even when
over budget. -/
theorem evictLoop_all_pinned {es : List CacheEntry} (fuel need cap : Nat)
    (h : ∀ e ∈ es, 0 < e.pin_count) : evictLoop fuel es need cap = es := by
  cases fuel with
  | zero => rfl
  | succ fuel =>
    by_cases hfit : totalSize es + need ≤ cap
    · simp [evictLoop, hfit]
    · simp [evictLoop, hfit, dropFirstUnpinned_none h]

/-- Cache footprint of an appended list. -/
theorem totalSize_append (es1 es2 : List CacheEntry) :
    totalSize (es1 ++ es2) = totalSize es1 + totalSize es2 := by
  simp [totalSize]

/-- C3: in every reachable CacheStore state, eviction (run by `insert`)
removes only entries whose `pin_count` is 0; when every cached entry is
pinned and the budget is already exceeded, no entry is evicted and the
total cache size stays above the configured capacity. -/
theorem eviction_respects_pins (store : CacheStore) (p : String) (c : Bytes)
    (v : Nat) :
    (∀ e ∈ store.entries, e ∉ (insertEntry store p c v).entries →
      e.pin_count = 0) ∧
    ((∀ e ∈ store.entries, 0 < e.pin_count) →
      store.capacity < totalSize store.entries →
      (insertEntry store p c v).entries = store.entries ++ [⟨p, v, c, 1, false⟩] ∧
      store.capacity < totalSize (insertEntry store p c v).entries) := by
  constructor
  · intro e he hnot
    by_contra hne
    have hpin : 0 < e.pin_count := Nat.pos_of_ne_zero hne
    exact hnot (List.mem_append_left _ (mem_evictLoop _ _ _ he hpin))
  · intro hall hover
    have heq : evictLoop store.entries.length store.entries c.length
        store.capacity = store.entries := evictLoop_all_pinned _ _ _ hall
    refine ⟨by simp [insertEntry, heq], ?_⟩
    simp only [insertEntry, heq, totalSize_append]
    omega

/-- Witness for C3 at a concrete over-budget store of two pinned
entries. -/
theorem eviction_respects_pins_witness :
    (insertEntry { entries := [⟨"A", 0, [7, 7], 1, false⟩,
                               ⟨"B", 1, [7, 7], 2, false⟩], capacity := 3 }
        "X" [5] 9).entries
      = [⟨"A", 0, [7, 7], 1, false⟩, ⟨"B", 1, [7, 7], 2, false⟩]
          ++ [⟨"X", 9, [5], 1, false⟩] ∧
    (3 : Nat) < totalSize (insertEntry { entries := [⟨"A", 0, [7, 7], 1, false⟩,
                               ⟨"B", 1, [7, 7], 2, false⟩], capacity := 3 }
        "X" [5] 9).entries := by
  exact (eviction_respects_pins
    { entries := [⟨"A", 0, [7, 7], 1, false⟩, ⟨"B", 1, [7, 7], 2, false⟩],
      capacity := 3 } "X" [5] 9).2 (by decide) (by decide)

/-- C4: the LRU scenario of test_lru_5 — capacity five one-unit slots;
opens of A, B, C leave LRU order A, B, C; re-opening B moves it to the
newest position; opening D, E, F, G then evicts strictly in
least-recently-used order (A first, then C), leaving the five most
recently used entries. -/
theorem lru_eviction_scenario :
    pathsOf (runRO lruInit ["A", "B", "C"]) = ["A", "B", "C"] ∧
    pathsOf (runRO lruInit ["A", "B", "C", "B"]) = ["A", "C", "B"] ∧
    pathsOf (runRO lruInit ["A", "B", "C", "B", "D", "E", "F"])
      = ["C", "B", "D", "E", "F"] ∧
    pathsOf (runRO lruInit ["A", "B", "C", "B", "D", "E", "F", "G"])
      = ["B", "D", "E", "F", "G"] := by
  set_option maxRecDepth 100000 in refine ⟨by decide, by decide, by decide, by decide⟩

/-- The summing helper behind `full_read`: starting at call `j` with
accumulator `acc`, with all calls before `k` positive and call `k`
non-positive, the loop stops at `k` and returns the accumulated sum. -/
theorem full_read_loop_go (f : Nat → Int) (k : Nat) (hstop : f k ≤ 0) :
    ∀ n j acc, j + n = k → (∀ i, j ≤ i → i < k → 0 < f i) →
      full_read_loop f (n + 1) j acc
        = some (acc + ∑ i in Finset.Ico j k, f i) := by
  intro n
  induction n with
  | zero =>
    intro j acc hj _
    have hj' : j = k := by omega
    subst hj'
    have hnot : ¬ 0 < f j := not_lt.2 hstop
    simp [full_read_loop, hnot]
  | succ n ih =>
    intro j acc hj hpos
    have hjk : j < k := by omega
    have hfj : 0 < f j := hpos j le_rfl hjk
    have hsum : ∑ i in Finset.Ico j k, f i
        = f j + ∑ i in Finset.Ico (j + 1) k, f i :=
      Finset.sum_eq_sum_Ico_succ_bot hjk f
    have step : full_read_loop f (n + 1 + 1) j acc
        = if 0 < f j then full_read_loop f (n + 1) (j + 1) (acc + f j)
          else some acc := rfl
    rw [step, if_pos hfj,
        ih (j + 1) (acc + f j) (by omega) (fun i hi1 hi2 => hpos i (by omega) hi2),
        hsum, add_assoc]

/-- C10: `full_read` issues reads whose results are `f 0, f 1, ...`,
each deposited at the buffer offset accumulated so far, stops at the
first call returning a non-positive value, terminates, and returns the
sum of the positive per-call byte counts. -/
theorem full_read_sums_positive_reads (f : Nat → Int) (k : Nat)
    (hpos : ∀ i, i < k → 0 < f i) (hstop : f k ≤ 0) :
    full_read f (k + 1) = some (∑ i in Finset.range k, f i) := by
  have h := full_read_loop_go f k hstop k 0 0 (by omega)
    (fun i _ h2 => hpos i h2)
  have h2 : full_read f (k + 1) = full_read_loop f (k + 1) 0 0 := rfl
  rw [h2, h, zero_add, Finset.range_eq_Ico]

/-- Witness for C10: two full 1024-byte chunks then end-of-file. -/
theorem full_read_sums_positive_reads_witness :
    full_read (fun i => if i < 2 then 1024 else 0) 3 = some 2048 := by
  have h := full_read_sums_positive_reads (fun i => if i < 2 then 1024 else 0)
    2 (by decide) (by norm_num)
  rw [h]
  norm_num [Finset.sum_range_succ]

/-- `stat` finds the file just pushed to the head of the server table. -/
theorem serverStat_cons_self (files : List (String × ServerFile)) (nv : Nat)
    (pf : List String) (p : String) (f : ServerFile) :
    serverStat { files := (p, f) :: files, nextVersion := nv, pushFail := pf }
      p = some f := by
  simp [serverStat]

/-- Closing a dirty write-mode session whose push succeeds: the buffer is
pushed to the server, the CacheEntry is overwritten with the buffer
of the session and new version and unpinned, and the session is discarded.  The
resulting state is characterized completely. -/
theorem dirtyClose_commit (st : ProxyState) (h : Nat) (s : OpenSession)
    (e : CacheEntry) (hs : getSession st h = some s)
    (hm : s.mode = Mode.readWrite) (hd : s.dirty = true)
    (he : findEntry st.store.entries s.path = some e)
    (hdel : e.deleted = false)
    (hpush : st.server.pushFail.contains s.path = false) :
    closeFile st h =
      (Except.ok (),
       { server := { files := (s.path, ⟨s.buffer, st.server.nextVersion⟩) ::
                       st.server.files.filter (fun q => q.1 != s.path),
                     nextVersion := st.server.nextVersion + 1,
                     pushFail := st.server.pushFail },
         store := { entries := removePath st.store.entries s.path ++
                      [⟨s.path, st.server.nextVersion, s.buffer,
                        e.pin_count - 1, false⟩],
                    capacity := st.store.capacity },
         sessions := removeSession st.sessions h,
         nextHandle := st.nextHandle,
         fetchCount := st.fetchCount }) := by
  have hp : e.path = s.path := findEntry_path he
  obtain ⟨ep, ev, ec, epin, edel⟩ := e
  simp only at hp hdel
  subst hdel
  have hupd : updateEntry st.store.entries s.path s.buffer st.server.nextVersion
      = removePath st.store.entries s.path ++
          [⟨ep, st.server.nextVersion, s.buffer, epin, false⟩] := by
    simp [updateEntry, he]
  have hfind2 : findEntry (removePath st.store.entries s.path ++
      [⟨ep, st.server.nextVersion, s.buffer, epin, false⟩]) s.path
      = some ⟨ep, st.server.nextVersion, s.buffer, epin, false⟩ :=
    findEntry_remove_append _ _ _ hp
  have hmap : List.map
        (fun e' : CacheEntry => if e'.path == s.path
          then { e' with pin_count := e'.pin_count - 1 } else e')
        (removePath st.store.entries s.path ++
          [⟨ep, st.server.nextVersion, s.buffer, epin, false⟩])
      = removePath st.store.entries s.path ++
          [⟨ep, st.server.nextVersion, s.buffer, epin - 1, false⟩] := by
    rw [List.map_append]
    congr 1
    · apply map_fixed
      intro a ha
      have hane : a.path ≠ s.path := by
        have := (List.mem_filter.1 ha).2
        simpa using this
      simp [hane]
    · simp [hp]
  simp only [closeFile, hs, hm, hd, Bool.and_true, beq_self_eq_true, if_true,
    serverPush, hpush, Bool.false_eq_true, if_false, hupd, unpinStore, hfind2]
  simp only [hmap]
  simp [hp]

/-- C1: last close wins.  For two dirty write-mode sessions on the same
path (in particular two writers forked from the same base version),
closing one and then the other leaves the cached and remote content
equal to the buffer of the session closed last, whatever was written,
in whatever order, by either; instantiating the two session binders in
either order covers both close orders. -/
theorem last_close_wins (st : ProxyState) (h1 h2 : Nat)
    (s1 s2 : OpenSession) (e : CacheEntry) (p : String) (hne : h2 ≠ h1)
    (hs1 : getSession st h1 = some s1) (hs2 : getSession st h2 = some s2)
    (hm1 : s1.mode = Mode.readWrite) (hd1 : s1.dirty = true)
    (hp1 : s1.path = p)
    (hm2 : s2.mode = Mode.readWrite) (hd2 : s2.dirty = true)
    (hp2 : s2.path = p)
    (he : findEntry st.store.entries p = some e) (hdel : e.deleted = false)
    (hpush : st.server.pushFail.contains p = false) :
    ∃ st1 st2,
      closeFile st h1 = (Except.ok (), st1) ∧
      closeFile st1 h2 = (Except.ok (), st2) ∧
      (findEntry st2.store.entries p).map (fun e' => e'.content)
        = some s2.buffer ∧
      (serverStat st2.server p).map (fun q => q.content) = some s2.buffer := by
  have hc1 := dirtyClose_commit st h1 s1 e hs1 hm1 hd1 (hp1 ▸ he) hdel
    (hp1 ▸ hpush)
  set st1 : ProxyState :=
    { server := { files := (s1.path, ⟨s1.buffer, st.server.nextVersion⟩) ::
                    st.server.files.filter (fun q => q.1 != s1.path),
                  nextVersion := st.server.nextVersion + 1,
                  pushFail := st.server.pushFail },
      store := { entries := removePath st.store.entries s1.path ++
                   [⟨s1.path, st.server.nextVersion, s1.buffer,
                     e.pin_count - 1, false⟩],
                 capacity := st.store.capacity },
      sessions := removeSession st.sessions h1,
      nextHandle := st.nextHandle,
      fetchCount := st.fetchCount } with hst1
  have hs2' : getSession st1 h2 = some s2 := by
    simp only [getSession, hst1]
    rw [find?_removeSession_ne _ _ _ hne]
    exact hs2
  have he1 : findEntry st1.store.entries s2.path
      = some ⟨s1.path, st.server.nextVersion, s1.buffer, e.pin_count - 1,
              false⟩ := by
    rw [hp2, ← hp1]
    exact findEntry_remove_append _ _ _ rfl
  have hpush1 : st1.server.pushFail.contains s2.path = false := by
    rw [hp2]
    exact hpush
  have hc2 := dirtyClose_commit st1 h2 s2
    ⟨s1.path, st.server.nextVersion, s1.buffer, e.pin_count - 1, false⟩
    hs2' hm2 hd2 he1 rfl hpush1
  dsimp only at hc2
  refine ⟨st1, (closeFile st1 h2).2, hc1, ?_, ?_, ?_⟩
  · rw [hc2]
  · rw [hc2]
    simp only
    rw [← hp2]
    rw [findEntry_remove_append st1.store.entries s2.path
      ⟨s2.path, st1.server.nextVersion, s2.buffer, e.pin_count - 1 - 1, false⟩
      rfl]
    rfl
  · rw [hc2]
    simp only
    rw [← hp2, serverStat_cons_self]
    rfl

/-- C5: the write-reservation policy.  A write on a write-mode session
returns `(count, reserve)` with `reserve = end - original_length` in
truncated subtraction: zero whenever the target range stays within
`[0, original_length)`, exactly the delta past `original_length`
otherwise; and `original_length` advances to the actual resulting
buffer length `max buffer.length (offset + data.length)`, not to any
reservation figure. -/
theorem write_reservation_policy (st : ProxyState) (h : Nat) (data : Bytes)
    (s : OpenSession) (hs : getSession st h = some s)
    (hm : s.mode = Mode.readWrite) :
    (writeSession st h data).1
      = Except.ok (data.length, s.offset + data.length - s.original_length) ∧
    (s.offset + data.length ≤ s.original_length →
      (writeSession st h data).1 = Except.ok (data.length, 0)) ∧
    (s.original_length < s.offset + data.length →
      (writeSession st h data).1
        = Except.ok (data.length,
            s.offset + data.length - s.original_length)) ∧
    getSession (writeSession st h data).2 h
      = some { s with buffer := writeAt s.buffer s.offset data,
                      offset := s.offset + data.length, dirty := true,
                      original_length := (writeAt s.buffer s.offset data).length } ∧
    (writeAt s.buffer s.offset data).length
      = max s.buffer.length (s.offset + data.length) := by
  have hmode : (s.mode == Mode.readOnly) = false := by rw [hm]; rfl
  have hwrite : writeSession st h data =
      (Except.ok (data.length, s.offset + data.length - s.original_length),
       { st with sessions := setSession st.sessions h { s with buffer := writeAt s.buffer s.offset data, offset := s.offset + data.length, dirty := true, original_length := (writeAt s.buffer s.offset data).length } }) := by
    simp [writeSession, hs, hmode]
  have hfst : (writeSession st h data).1
      = Except.ok (data.length, s.offset + data.length - s.original_length) := by
    rw [hwrite]
  refine ⟨hfst, ?_, fun _ => hfst, ?_, ?_⟩
  · intro hle
    have hz : s.offset + data.length - s.original_length = 0 := by omega
    rw [hfst, hz]
  · cases hpair : st.sessions.find? (fun q => q.1 == h) with
    | none => simp [getSession, hpair] at hs
    | some a =>
      rw [hwrite]
      simp only [getSession]
      rw [find?_setSession_self _ _ _ _ hpair]
      rfl
  · simp only [writeAt, List.length_append, List.length_take,
      List.length_replicate, List.length_drop]
    omega

/-- C7: failing opens are pure errors.  Exclusive-create against a path
existing remotely fails `AlreadyExists`; a no-create open of a path that
is neither cached nor on the server fails `NotFound`; in both cases the
returned state is exactly the input state: no session, no fetch, no
CacheEntry. -/
theorem open_error_paths (st : ProxyState) (pEx pAb : String)
    (mEx mAb : Mode) (f : ServerFile)
    (hc1 : findEntry st.store.entries pEx = none)
    (hs1 : serverStat st.server pEx = some f)
    (hc2 : findEntry st.store.entries pAb = none)
    (hs2 : serverStat st.server pAb = none) :
    openFile st pEx mEx true true = (Except.error Err.AlreadyExists, st) ∧
    openFile st pAb mAb false false = (Except.error Err.NotFound, st) := by
  constructor
  · simp [openFile, hc1, hs1]
  · simp [openFile, hc2, hs2]

/-- C2: snapshot isolation for readers.  After the dirty
write-mode close of another session commits to the path of the reader, the read-only session is
untouched: it is still registered unchanged, and a read through it
returns exactly the bytes of its open-time snapshot buffer, identical to
what it returned before the commit; whereas a fresh open performed after
the commit forks its buffer from the newly committed content. -/
theorem reader_snapshot_isolation (st : ProxyState) (hr hw : Nat)
    (sr sw : OpenSession) (e : CacheEntry) (p : String) (n : Nat)
    (hne : hr ≠ hw)
    (hsr : getSession st hr = some sr) (hsw : getSession st hw = some sw)
    (hmr : sr.mode = Mode.readOnly) (hpr : sr.path = p)
    (hmw : sw.mode = Mode.readWrite) (hdw : sw.dirty = true)
    (hpw : sw.path = p)
    (he : findEntry st.store.entries p = some e) (hdel : e.deleted = false)
    (hpush : st.server.pushFail.contains p = false) :
    ∃ st', closeFile st hw = (Except.ok (), st') ∧
      getSession st' hr = some sr ∧
      (readSession st' hr n).1
        = Except.ok ((sr.buffer.drop sr.offset).take n) ∧
      (readSession st' hr n).1 = (readSession st hr n).1 ∧
      ∃ stf, openFile st' p Mode.readOnly false false
          = (Except.ok st'.nextHandle, stf) ∧
        stf.sessions = st'.sessions ++ [(st'.nextHandle, mkSession p Mode.readOnly st.server.nextVersion sw.buffer)] := by
  have hc := dirtyClose_commit st hw sw e hsw hmw hdw (hpw ▸ he) hdel
    (hpw ▸ hpush)
  set st' : ProxyState :=
    { server := { files := (sw.path, ⟨sw.buffer, st.server.nextVersion⟩) :: st.server.files.filter (fun q => q.1 != sw.path), nextVersion := st.server.nextVersion + 1, pushFail := st.server.pushFail },
      store := { entries := removePath st.store.entries sw.path ++ [⟨sw.path, st.server.nextVersion, sw.buffer, e.pin_count - 1, false⟩], capacity := st.store.capacity },
      sessions := removeSession st.sessions hw,
      nextHandle := st.nextHandle,
      fetchCount := st.fetchCount } with hst'
  have hgr : getSession st' hr = some sr := by
    simp only [getSession, hst']
    rw [find?_removeSession_ne _ _ _ hne]
    exact hsr
  have hread' : (readSession st' hr n).1
      = Except.ok ((sr.buffer.drop sr.offset).take n) := by
    simp [readSession, hgr]
  have hread : (readSession st hr n).1
      = Except.ok ((sr.buffer.drop sr.offset).take n) := by
    simp [readSession, hsr]
  have hfind' : findEntry st'.store.entries p
      = some ⟨sw.path, st.server.nextVersion, sw.buffer, e.pin_count - 1,
              false⟩ := by
    rw [hst']
    simp only
    rw [← hpw]
    exact findEntry_remove_append _ _ _ rfl
  have hstat' : serverStat st'.server p
      = some ⟨sw.buffer, st.server.nextVersion⟩ := by
    rw [hst']
    simp only
    rw [← hpw]
    exact serverStat_cons_self _ _ _ _ _
  have hopen : openFile st' p Mode.readOnly false false
      = (Except.ok st'.nextHandle,
         { st' with store := { st'.store with entries := removePath st'.store.entries p ++ [⟨sw.path, st.server.nextVersion, sw.buffer, e.pin_count - 1 + 1, false⟩] }, sessions := st'.sessions ++ [(st'.nextHandle, mkSession p Mode.readOnly st.server.nextVersion sw.buffer)], nextHandle := st'.nextHandle + 1 }) := by
    simp [openFile, hfind', hstat']
  exact ⟨st', hc, hgr, hread', by rw [hread', hread],
    (openFile st' p Mode.readOnly false false).2, by rw [hopen],
    by rw [hopen]⟩

/-- C6: a cache hit whose version matches the server performs no fetch.
For a path that is cached and fresh (as it is after its first successful
open, and which it stays while no writer commits and no out-of-band
change bumps the server version), any further open returns the cached
content — the buffer of the new session is forked from the entry — while the
fetch counter and the server are untouched. -/
theorem open_hit_no_fetch (st : ProxyState) (p : String) (m : Mode)
    (e : CacheEntry) (f : ServerFile)
    (he : findEntry st.store.entries p = some e) (hdel : e.deleted = false)
    (hstat : serverStat st.server p = some f) (hv : f.version = e.version) :
    ∃ st', openFile st p m false false = (Except.ok st.nextHandle, st') ∧
      st'.fetchCount = st.fetchCount ∧
      st'.sessions = st.sessions
        ++ [(st.nextHandle, mkSession p m e.version e.content)] ∧
      st'.server = st.server := by
  have hbeq : (f.version == e.version) = true := by simp [hv]
  have hopen : openFile st p m false false
      = (Except.ok st.nextHandle,
         { st with store := { st.store with entries := removePath st.store.entries p ++ [{ e with pin_count := e.pin_count + 1 }] }, sessions := st.sessions ++ [(st.nextHandle, mkSession p m e.version e.content)], nextHandle := st.nextHandle + 1 }) := by
    simp [openFile, he, hstat, hbeq, hdel]
  exact ⟨_, hopen, rfl, rfl, rfl⟩

/-- The bytes returned by a read do not depend on the entry list. -/
theorem readSession_entries_frame (st : ProxyState) (es : List CacheEntry)
    (h : Nat) (n : Nat) :
    (readSession { st with store := { st.store with entries := es } } h n).1
      = (readSession st h n).1 := by
  have hg : getSession { st with store := { st.store with entries := es } } h
      = getSession st h := rfl
  simp only [readSession, hg]
  cases getSession st h <;> rfl

/-- The count and reservation returned by a write do not depend on the entry
list. -/
theorem writeSession_entries_frame (st : ProxyState) (es : List CacheEntry)
    (h : Nat) (data : Bytes) :
    (writeSession { st with store := { st.store with entries := es } } h
        data).1
      = (writeSession st h data).1 := by
  have hg : getSession { st with store := { st.store with entries := es } } h
      = getSession st h := rfl
  simp only [writeSession, hg]
  cases getSession st h with
  | none => rfl
  | some s => by_cases hm : (s.mode == Mode.readOnly) = true <;> simp [hm]

/-- C8: unlink with open sessions is deferred.  Unlinking a pinned path
succeeds, leaves the whole session table (hence every session buffer,
offset, readability and writability) unchanged — reads and writes
return exactly what they returned before — keeps the entry cached but
marked deleted, makes any non-creating open of the path fail `NotFound`
as a logically absent file, and postpones the actual deletion (entry
dropped, delete propagated to the server) to the close that drops
`pin_count` to zero. -/
theorem unlink_while_open (st : ProxyState) (p : String) (e : CacheEntry)
    (h : Nat) (s : OpenSession)
    (he : findEntry st.store.entries p = some e) (hpin : 0 < e.pin_count)
    (hs : getSession st h = some s) :
    ∃ st', unlinkPath st p = (Except.ok (), st') ∧
      st'.sessions = st.sessions ∧
      getSession st' h = some s ∧
      (∀ h' n, (readSession st' h' n).1 = (readSession st h' n).1) ∧
      (∀ h' data, (writeSession st' h' data).1
        = (writeSession st h' data).1) ∧
      findEntry st'.store.entries p = some { e with deleted := true } ∧
      (∀ m' ex, openFile st' p m' false ex = (Except.error Err.NotFound, st')) ∧
      (s.path = p → s.mode = Mode.readOnly → e.pin_count = 1 →
        findEntry ((closeFile st' h).2).store.entries p = none ∧
        serverStat ((closeFile st' h).2).server p = none) := by
  have hep : e.path = p := findEntry_path he
  have hpin' : (e.pin_count == 0) = false := by
    simpa using Nat.pos_iff_ne_zero.1 hpin
  set es' : List CacheEntry := st.store.entries.map
    (fun e' => if e'.path == p then { e' with deleted := true } else e')
    with hes'
  set st' : ProxyState := { st with store := { st.store with entries := es' } }
    with hst'
  have hu : unlinkPath st p = (Except.ok (), st') := by
    simp [unlinkPath, he, hpin', hst', hes']
  have hmap' : findEntry es' p = some { e with deleted := true } := by
    have hf : ∀ a : CacheEntry,
        ((if a.path == p then { a with deleted := true } else a).path == p)
          = (a.path == p) := by
      intro a
      by_cases hap : a.path = p <;> simp [hap]
    rw [hes']
    simp only [findEntry] at he ⊢
    rw [find?_map_pred _ _ _ hf, he]
    simp [hep]
  refine ⟨st', hu, rfl, hs, ?_, ?_, hmap', ?_, ?_⟩
  · intro h' n
    rw [hst']
    exact readSession_entries_frame st es' h' n
  · intro h' data
    rw [hst']
    exact writeSession_entries_frame st es' h' data
  · intro m' ex
    have hfind : findEntry st'.store.entries p
        = some { e with deleted := true } := hmap'
    simp [openFile, hfind]
  · intro hsp hsm hpin1
    have hmode : (s.mode == Mode.readWrite && s.dirty) = false := by
      rw [hsm]
      rfl
    have hs' : getSession st' h = some s := hs
    have hclose : closeFile st' h
        = (Except.ok (),
           unpinStore { st' with sessions := removeSession st'.sessions h }
             s.path) := by
      simp [closeFile, hs', hmode]
    have hfind2 : findEntry
        ({ st' with sessions := removeSession st'.sessions h }).store.entries
          p = some { e with deleted := true } := hmap'
    have hcond : ({ e with deleted := true } : CacheEntry).pin_count ≤ 1 ∧
        ({ e with deleted := true } : CacheEntry).deleted = true := by
      simp [hpin1]
    rw [hclose]
    simp only
    rw [hsp]
    simp [unpinStore, hfind2, hcond, findEntry_removePath_self,
      serverStat_delete_self]

/-- C9: a failed push during a dirty close leaves the CacheEntry and the
whole proxy state unchanged, surfaces `PushFailed` to the caller, and
keeps the session in place still dirty, so the close can be retried. -/
theorem failed_push_preserves_entry (st : ProxyState) (h : Nat)
    (s : OpenSession) (hs : getSession st h = some s)
    (hm : s.mode = Mode.readWrite) (hd : s.dirty = true)
    (hfail : st.server.pushFail.contains s.path = true) :
    closeFile st h = (Except.error Err.PushFailed, st) ∧
    findEntry ((closeFile st h).2).store.entries s.path
      = findEntry st.store.entries s.path ∧
    getSession ((closeFile st h).2) h = some s ∧ s.dirty = true := by
  have hc : closeFile st h = (Except.error Err.PushFailed, st) := by
    have hfail' : s.path ∈ st.server.pushFail := by simpa using hfail
    simp [closeFile, hs, hm, hd, serverPush, hfail']
  exact ⟨hc, by rw [hc], by rw [hc]; exact hs, hd⟩

/-- Witness for C1 at the concrete two-writer state: the writer closed
last (handle 1, buffer `[1, 200]`) determines cache and server. -/
theorem last_close_wins_witness :
    ∃ st1 st2,
      closeFile twoWriterState 0 = (Except.ok (), st1) ∧
      closeFile st1 1 = (Except.ok (), st2) ∧
      (findEntry st2.store.entries "b").map (fun e' => e'.content)
        = some [1, 200] ∧
      (serverStat st2.server "b").map (fun q => q.content) = some [1, 200] :=
  last_close_wins twoWriterState 0 1 (writerSession 100) (writerSession 200)
    ⟨"b", 0, [1], 2, false⟩ "b" (by decide) (by decide) (by decide) rfl rfl
    rfl rfl rfl rfl (by decide) rfl (by decide)

/-- Witness for C2 at the concrete reader/writer state: the reader still
returns `[1, 2]` after the writer commits `[1, 2, 9]`; a fresh open
forks `[1, 2, 9]`. -/
theorem reader_snapshot_isolation_witness :
    ∃ st', closeFile snapState 1 = (Except.ok (), st') ∧
      getSession st' 0 = some snapReader ∧
      (readSession st' 0 10).1 = Except.ok [1, 2] ∧
      (readSession st' 0 10).1 = (readSession snapState 0 10).1 ∧
      ∃ stf, openFile st' "b" Mode.readOnly false false
          = (Except.ok st'.nextHandle, stf) ∧
        stf.sessions = st'.sessions ++ [(st'.nextHandle, mkSession "b" Mode.readOnly 1 [1, 2, 9])] :=
  reader_snapshot_isolation snapState 0 1 snapReader snapWriter
    ⟨"b", 0, [1, 2], 2, false⟩ "b" 10 (by decide) (by decide) (by decide)
    rfl rfl rfl rfl rfl (by decide) rfl (by decide)

/-- Witness for C5 at the reservation scenario of test_lru_3: a write of
seven bytes at offset 0 into the ten-byte file reserves nothing; a write
of seven bytes at offset 7 reserves exactly four bytes and advances
`original_length` to the resulting length 14. -/
theorem write_reservation_policy_witness :
    (writeSession (resvState 0) 0 (List.replicate 7 2)).1
      = Except.ok (7, 0) ∧
    (writeSession (resvState 7) 0 (List.replicate 7 3)).1
      = Except.ok (7, 4) ∧
    (getSession (writeSession (resvState 7) 0 (List.replicate 7 3)).2 0).map
        (fun s' => s'.original_length) = some 14 := by
  have h1 := write_reservation_policy (resvState 0) 0 (List.replicate 7 2)
    (resvSession 0) (by decide) rfl
  have h2 := write_reservation_policy (resvState 7) 0 (List.replicate 7 3)
    (resvSession 7) (by decide) rfl
  refine ⟨?_, ?_, ?_⟩
  · have hv := h1.2.1 (by decide)
    exact hv
  · have hv := h2.1
    exact hv
  · have hv := h2.2.2.2.1
    rw [hv]
    decide

/-- Witness for C6: the second open of `A` after an open/close pair hits
the cache, keeps the fetch counter at one, and forks the cached byte. -/
theorem open_hit_no_fetch_witness :
    ∃ st', openFile (openCloseRO lruInit "A") "A" Mode.readOnly false false
        = (Except.ok 1, st') ∧
      st'.fetchCount = 1 ∧
      st'.sessions = [(1, mkSession "A" Mode.readOnly 0 [7])] := by
  obtain ⟨st', h1, h2, h3, h4⟩ := open_hit_no_fetch (openCloseRO lruInit "A")
    "A" Mode.readOnly ⟨"A", 0, [7], 0, false⟩ ⟨[7], 0⟩ (by decide) rfl
    (by decide) rfl
  refine ⟨st', ?_, ?_, ?_⟩
  · rw [h1]
    have hn : (openCloseRO lruInit "A").nextHandle = 1 := by decide
    rw [hn]
  · rw [h2]
    decide
  · rw [h3]
    decide

/-- Witness for C7 at the LRU scenario state: exclusive create of the
existing `A` fails `AlreadyExists`, a plain open of the absent `Z` fails
`NotFound`, both returning the untouched input state. -/
theorem open_error_paths_witness :
    openFile lruInit "A" Mode.readWrite true true
      = (Except.error Err.AlreadyExists, lruInit) ∧
    openFile lruInit "Z" Mode.readOnly false false
      = (Except.error Err.NotFound, lruInit) :=
  open_error_paths lruInit "A" "Z" Mode.readWrite Mode.readOnly (unitFile 0)
    rfl (by decide) rfl (by decide)

/-- Witness for C8 at the concrete pinned state: unlinking `A` leaves
the read session untouched, keeps the entry cached but marked deleted,
makes non-creating opens fail, and the final close drops the entry and
propagates the delete. -/
theorem unlink_while_open_witness :
    ∃ st', unlinkPath unlinkState "A" = (Except.ok (), st') ∧
      st'.sessions = unlinkState.sessions ∧
      getSession st' 0 = some unlinkSession ∧
      (∀ h' n, (readSession st' h' n).1
        = (readSession unlinkState h' n).1) ∧
      (∀ h' data, (writeSession st' h' data).1
        = (writeSession unlinkState h' data).1) ∧
      findEntry st'.store.entries "A" = some ⟨"A", 0, [7], 1, true⟩ ∧
      (∀ m' ex, openFile st' "A" m' false ex
        = (Except.error Err.NotFound, st')) ∧
      (findEntry ((closeFile st' 0).2).store.entries "A" = none ∧
        serverStat ((closeFile st' 0).2).server "A" = none) := by
  obtain ⟨st', h1, h2, h3, h4, h5, h6, h7, h8⟩ := unlink_while_open
    unlinkState "A" ⟨"A", 0, [7], 1, false⟩ 0 unlinkSession (by decide)
    (by decide) (by decide)
  exact ⟨st', h1, h2, h3, h4, h5, h6, h7, h8 rfl rfl rfl⟩

/-- Witness for C9 at the concrete rejected-push state: the close fails,
the entry and the dirty session survive untouched. -/
theorem failed_push_preserves_entry_witness :
    closeFile pushFailState 0
      = (Except.error Err.PushFailed, pushFailState) ∧
    findEntry ((closeFile pushFailState 0).2).store.entries "p"
      = findEntry pushFailState.store.entries "p" ∧
    getSession ((closeFile pushFailState 0).2) 0
      = some ⟨"p", Mode.readWrite, 0, [9], 1, true, 1⟩ ∧
    (⟨"p", Mode.readWrite, 0, [9], 1, true, 1⟩ : OpenSession).dirty = true :=
  failed_push_preserves_entry pushFailState 0
    ⟨"p", Mode.readWrite, 0, [9], 1, true, 1⟩ (by decide) rfl rfl (by decide)

end FCProxy
